import Mathlib

/-!
A shallow embedding of the ToDo task-list service (`src/main.py`).

The backing store (sqlite table `tasks`) is modelled as a list of rows in
rowid (insertion) order together with the AUTOINCREMENT counter.  Each HTTP
handler becomes a pure function on this state.  Handlers that can execute
mutating SQL statements also return the list of mutating statements they
executed before returning (`SqlWrite` records the statement kind and the
number of rows it matched); a handler that raises `HTTPException` before
`conn.commit()` leaves the persisted state unchanged, because closing the
sqlite connection without a commit rolls the open transaction back — this
rollback convention is captured by `persistedOf`.
-/

namespace Todo

/-- A row of the `tasks` table (schema in `init_db`). -/
structure Task where
  id : Nat
  title : String
  status : String
  created_at : String
  order_index : Int
  deriving DecidableEq, Repr

/-- Request body of `POST /api/tasks` (pydantic model `TaskCreate`; the
pydantic defaults are applied on the caller's side). -/
structure TaskCreate where
  title : String
  status : String
  order_index : Option Int
  deriving DecidableEq, Repr

/-- Request body of `PUT /api/tasks/{id}` (pydantic model `TaskUpdate`). -/
structure TaskUpdate where
  title : Option String
  status : Option String
  order_index : Option Int
  deriving DecidableEq, Repr

/-- The persistent state: the `tasks` table in rowid order, plus the
AUTOINCREMENT counter (ids are never reused after deletion). -/
structure DB where
  tasks : List Task
  next_id : Nat
  deriving DecidableEq, Repr

/-- The two `HTTPException`s the handlers raise. -/
inductive Err where
  | notFound
  | invalidArgument
  deriving DecidableEq, Repr

/-- HTTP status code attached to each error. -/
def Err.httpStatus : Err → Nat
  | .notFound => 404
  | .invalidArgument => 400

/-- One executed mutating SQL statement: its kind and the number of table
rows matched by its WHERE clause (1 for an INSERT). -/
structure SqlWrite where
  stmt : String
  rows : Nat
  deriving DecidableEq, Repr

/-- `valid_statuses = ["todo", "in_progress", "done"]`. -/
def validStatuses : List String := ["todo", "in_progress", "done"]

/-- Persisted state after a handler finishes: on success the committed
state, on an error the original state (the connection is closed without a
commit, so sqlite rolls the transaction back). -/
def persistedOf {β : Type} (s : DB) : Except Err (DB × β) → DB
  | .ok (db, _) => db
  | .error _ => s

/-- Comparison used by `ORDER BY order_index ASC`. -/
def idxLe (a b : Task) : Prop := a.order_index ≤ b.order_index

instance : DecidableRel idxLe :=
  fun a b => inferInstanceAs (Decidable (a.order_index ≤ b.order_index))

instance : IsTotal Task idxLe := ⟨fun a b => Int.le_total a.order_index b.order_index⟩

instance : IsTrans Task idxLe := ⟨fun _ _ _ h1 h2 => le_trans h1 h2⟩

/-- `SELECT ... ORDER BY order_index ASC`: a stable sort of the rows by
`order_index` (rows with equal keys keep their rowid order). -/
def sortTasks (ts : List Task) : List Task := List.insertionSort idxLe ts

/-- `SELECT MAX(order_index) FROM tasks` — `NULL` (`none`) on an empty table. -/
def maxOrderIndex (ts : List Task) : Option Int :=
  ts.foldl (fun acc t =>
    match acc with
    | none => some t.order_index
    | some m => some (max m t.order_index)) none

/-- `GET /api/tasks` (`get_tasks`): only a SELECT, state unchanged. -/
def get_tasks (s : DB) : DB × List Task := (s, sortTasks s.tasks)

/-- `POST /api/tasks` (`create_task`). -/
def create_task (s : DB) (tc : TaskCreate) (now : String) :
    List SqlWrite × Except Err (DB × Option Task) :=
  if tc.status ∈ validStatuses then
    -- `max_index = cursor.fetchone()[0] or 0`: Python `or` yields 0 both
    -- when MAX is NULL (empty table) and when the stored max is 0 itself
    let max_index : Int :=
      match maxOrderIndex s.tasks with
      | none => 0
      | some v => if v = 0 then 0 else v
    let new_order_index : Int := max_index + 1
    let newTask : Task :=
      { id := s.next_id, title := tc.title, status := tc.status, created_at := now,
        order_index := match tc.order_index with | some k => k | none => new_order_index }
    let db' : DB := { tasks := s.tasks ++ [newTask], next_id := s.next_id + 1 }
    ([⟨"INSERT", 1⟩], .ok (db', db'.tasks.find? (fun r => r.id == s.next_id)))
  else
    ([], .error .invalidArgument)

/-- `GET /api/tasks/{id}` (`get_task`): only a SELECT, state unchanged. -/
def get_task (s : DB) (task_id : Nat) : DB × Except Err Task :=
  (s, match s.tasks.find? (fun r => r.id == task_id) with
      | some t => .ok t
      | none => .error .notFound)

/-- `PUT /api/tasks/{id}` (`update_task`).  The reordering logic runs
before the status validation, exactly as in the source; the cleared
`task_update.order_index = None` needs no counterpart because the field
update below never reads `order_index`. -/
def update_task (s : DB) (task_id : Nat) (u : TaskUpdate) :
    List SqlWrite × Except Err (DB × Option Task) :=
  match s.tasks.find? (fun r => r.id == task_id) with
  | none => ([], .error .notFound)
  | some cur =>
    let C := cur.order_index
    let moved : List SqlWrite × List Task :=
      match u.order_index with
      | some T =>
        if T = C then ([], s.tasks)
        else
          let wA : SqlWrite := ⟨"UPDATE", s.tasks.countP (fun r => r.id == task_id)⟩
          let a := s.tasks.map (fun r =>
            if r.id = task_id then { r with order_index := (-1 : Int) } else r)
          let wB : SqlWrite :=
            if C < T then
              ⟨"UPDATE", a.countP (fun r => decide (C < r.order_index ∧ r.order_index ≤ T))⟩
            else
              ⟨"UPDATE", a.countP (fun r => decide (T ≤ r.order_index ∧ r.order_index < C))⟩
          let b :=
            if C < T then
              a.map (fun r =>
                if C < r.order_index ∧ r.order_index ≤ T then
                  { r with order_index := r.order_index - 1 } else r)
            else
              a.map (fun r =>
                if T ≤ r.order_index ∧ r.order_index < C then
                  { r with order_index := r.order_index + 1 } else r)
          let wC : SqlWrite := ⟨"UPDATE", b.countP (fun r => r.id == task_id)⟩
          let c := b.map (fun r =>
            if r.id = task_id then { r with order_index := T } else r)
          ([wA, wB, wC], c)
      | none => ([], s.tasks)
    let w1 := moved.1
    let ts1 := moved.2
    -- `if task_update.status:` — a missing or falsy (empty) status is skipped
    let statusSet : Option String :=
      match u.status with
      | some st => if st = "" then none else some st
      | none => none
    match statusSet with
    | some st =>
      if st ∈ validStatuses then
        let ts2 := match u.title with
          | some ttl => ts1.map (fun r =>
              if r.id = task_id then { r with status := st, title := ttl } else r)
          | none => ts1.map (fun r =>
              if r.id = task_id then { r with status := st } else r)
        (w1 ++ [⟨"UPDATE", ts1.countP (fun r => r.id == task_id)⟩],
         .ok ({ tasks := ts2, next_id := s.next_id }, ts2.find? (fun r => r.id == task_id)))
      else (w1, .error .invalidArgument)
    | none =>
      match u.title with
      | some ttl =>
        let ts2 := ts1.map (fun r =>
          if r.id = task_id then { r with title := ttl } else r)
        (w1 ++ [⟨"UPDATE", ts1.countP (fun r => r.id == task_id)⟩],
         .ok ({ tasks := ts2, next_id := s.next_id }, ts2.find? (fun r => r.id == task_id)))
      | none =>
        (w1, .ok ({ tasks := ts1, next_id := s.next_id }, ts1.find? (fun r => r.id == task_id)))

/-- The recompaction loop of `delete_task`:
`for new_index, task_id in enumerate(task_ids): UPDATE tasks SET
order_index = new_index WHERE id = task_id`, starting the counter at `i`. -/
def renumberFrom (ts : List Task) (i : Nat) : List Nat → List Task × List SqlWrite
  | [] => (ts, [])
  | tid :: rest =>
    let w : SqlWrite := ⟨"UPDATE", ts.countP (fun r => r.id == tid)⟩
    let ts' := ts.map (fun r =>
      if r.id = tid then { r with order_index := (i : Int) } else r)
    let p := renumberFrom ts' (i + 1) rest
    (p.1, w :: p.2)

/-- `DELETE /api/tasks/{id}` (`delete_task`): the DELETE statement runs
first, `cursor.rowcount == 0` raises 404, otherwise the remaining rows are
renumbered to their rank in `ORDER BY order_index ASC`. -/
def delete_task (s : DB) (task_id : Nat) : List SqlWrite × Except Err (DB × Unit) :=
  let rowcount := s.tasks.countP (fun r => r.id == task_id)
  if rowcount = 0 then
    ([⟨"DELETE", 0⟩], .error .notFound)
  else
    let remaining := s.tasks.filter (fun r => r.id ≠ task_id)
    let ids := (sortTasks remaining).map (·.id)
    let p := renumberFrom remaining 0 ids
    (⟨"DELETE", rowcount⟩ :: p.2, .ok ({ tasks := p.1, next_id := s.next_id }, ()))

/-! ### Helper lemmas -/

lemma find?_eq_none_of_all_ne {ts : List Task} {tid : Nat}
    (h : ∀ r ∈ ts, r.id ≠ tid) : ts.find? (fun r => r.id == tid) = none := by
  rw [List.find?_eq_none]
  intro r hr
  simpa using h r hr

lemma create_invalid_status (s : DB) (tc : TaskCreate) (now : String)
    (h : tc.status ∉ validStatuses) :
    create_task s tc now = ([], .error .invalidArgument) := by
  simp [create_task, h]

lemma update_missing (s : DB) (tid : Nat) (u : TaskUpdate)
    (h : ∀ r ∈ s.tasks, r.id ≠ tid) :
    update_task s tid u = ([], .error .notFound) := by
  simp [update_task, find?_eq_none_of_all_ne h]

lemma delete_missing (s : DB) (tid : Nat)
    (h : ∀ r ∈ s.tasks, r.id ≠ tid) :
    delete_task s tid = ([⟨"DELETE", 0⟩], .error .notFound) := by
  have hc : s.tasks.countP (fun r => r.id == tid) = 0 := by
    rw [List.countP_eq_zero]
    intro r hr
    simpa using h r hr
  simp [delete_task, hc]

lemma update_bad_status (s : DB) (tid : Nat) (u : TaskUpdate) (cur : Task) (st : String)
    (hf : s.tasks.find? (fun r => r.id == tid) = some cur)
    (hs : u.status = some st) (hne : st ≠ "") (hv : st ∉ validStatuses) :
    (update_task s tid u).2 = .error .invalidArgument := by
  simp only [update_task, hf, hs]
  rcases u.order_index with _ | T
  · simp [hne, hv]
  · by_cases hT : T = cur.order_index <;> simp [hT, hne, hv]

lemma update_bad_status_nomove (s : DB) (tid : Nat) (u : TaskUpdate) (cur : Task) (st : String)
    (hf : s.tasks.find? (fun r => r.id == tid) = some cur)
    (hs : u.status = some st) (hne : st ≠ "") (hv : st ∉ validStatuses)
    (ho : u.order_index = none ∨ u.order_index = some cur.order_index) :
    update_task s tid u = ([], .error .invalidArgument) := by
  rcases ho with ho | ho <;> simp [update_task, hf, ho, hs, hne, hv]

/-! ### Claim theorems -/

/-- C1: the density invariant fails on the code: a single Create (with
`requested_index` omitted and a valid status) against an empty store
produces `order_index` set `{1}`, not `{0, …, n-1} = {0}`, because
`MAX(order_index) or 0` turns the empty table's NULL into 0 and the append
index into `0 + 1 = 1`. -/
theorem C1_density_violated_by_first_create :
    (persistedOf ⟨[], 1⟩ (create_task ⟨[], 1⟩ ⟨"a", "todo", none⟩ "now").2).tasks.map
        (fun r => r.order_index) = [1] ∧
    ¬ List.Perm
      ((persistedOf ⟨[], 1⟩ (create_task ⟨[], 1⟩ ⟨"a", "todo", none⟩ "now").2).tasks.map
        (fun r => r.order_index))
      ((List.range (persistedOf ⟨[], 1⟩
          (create_task ⟨[], 1⟩ ⟨"a", "todo", none⟩ "now").2).tasks.length).map Int.ofNat) := by
  refine ⟨rfl, fun h => ?_⟩
  have h1 := h.mem_iff.mp (show (1 : Int) ∈ [1] by simp)
  have h2 : (1 : Int) ∈ ([0] : List Int) := h1
  simp at h2

/-- C3: the claim's "append index is 0 on an empty list" fails on the
code: `max_index = fetchone()[0] or 0` maps the NULL of an empty table to
0, so the first created task receives `order_index = 0 + 1 = 1`. -/
theorem C3_create_on_empty_assigns_one :
    (create_task ⟨[], 1⟩ ⟨"a", "todo", none⟩ "now").2 =
      .ok (⟨[⟨1, "a", "todo", "now", 1⟩], 2⟩, some ⟨1, "a", "todo", "now", 1⟩) := by
  rfl

/-- C6 counterexample: an Update carrying a present, non-falsy, invalid
status but a nonexistent id fails with `NotFound`, not `InvalidArgument`,
because the id lookup runs first. -/
theorem C6_cx_bogus_status_on_missing_id_is_notFound :
    (update_task ⟨[], 1⟩ 1 ⟨none, some "bogus", none⟩).2 = .error .notFound ∧
    Err.notFound ≠ Err.invalidArgument :=
  ⟨rfl, by decide⟩

/-- C6 (amended): Create with an invalid status, and Update with an
invalid (present, non-falsy) status on an id that exists, fail with
`InvalidArgument` (HTTP 400) and leave the persisted state unchanged. -/
theorem C6_invalid_status_rejected :
    (∀ (s : DB) (tc : TaskCreate) (now : String), tc.status ∉ validStatuses →
        (create_task s tc now).2 = .error .invalidArgument ∧
        persistedOf s (create_task s tc now).2 = s) ∧
    (∀ (s : DB) (tid : Nat) (u : TaskUpdate) (cur : Task) (st : String),
        s.tasks.find? (fun r => r.id == tid) = some cur →
        u.status = some st → st ≠ "" → st ∉ validStatuses →
        (update_task s tid u).2 = .error .invalidArgument ∧
        persistedOf s (update_task s tid u).2 = s) ∧
    Err.httpStatus .invalidArgument = 400 := by
  refine ⟨fun s tc now h => ?_, fun s tid u cur st hf hs hne hv => ?_, rfl⟩
  · rw [create_invalid_status s tc now h]
    exact ⟨rfl, rfl⟩
  · have h2 := update_bad_status s tid u cur st hf hs hne hv
    rw [h2]
    exact ⟨rfl, rfl⟩

/-- C6 witness: concrete instantiations of both halves. -/
theorem C6_invalid_status_rejected_witness :
    (create_task ⟨[], 1⟩ ⟨"a", "bogus", none⟩ "now").2 = .error .invalidArgument ∧
    (update_task ⟨[⟨1, "a", "todo", "now", 0⟩], 2⟩ 1 ⟨none, some "bogus", none⟩).2 =
      .error .invalidArgument :=
  ⟨(C6_invalid_status_rejected.1 ⟨[], 1⟩ ⟨"a", "bogus", none⟩ "now" (by decide)).1,
   (C6_invalid_status_rejected.2.1 ⟨[⟨1, "a", "todo", "now", 0⟩], 2⟩ 1
      ⟨none, some "bogus", none⟩ ⟨1, "a", "todo", "now", 0⟩ "bogus"
      (by rfl) rfl (by decide) (by decide)).1⟩

/-- C7: Get, Update and Delete on an id no task carries fail with
`NotFound` (HTTP 404) and leave the persisted state unchanged (the Delete
statement matches zero rows, and nothing is committed). -/
theorem C7_missing_id_notFound (s : DB) (tid : Nat)
    (h : ∀ r ∈ s.tasks, r.id ≠ tid) :
    get_task s tid = (s, .error .notFound) ∧
    (∀ u, update_task s tid u = ([], .error .notFound)) ∧
    delete_task s tid = ([⟨"DELETE", 0⟩], .error .notFound) ∧
    (∀ u, persistedOf s (update_task s tid u).2 = s) ∧
    persistedOf s (delete_task s tid).2 = s ∧
    Err.httpStatus .notFound = 404 := by
  refine ⟨?_, fun u => update_missing s tid u h, delete_missing s tid h,
    fun u => ?_, ?_, rfl⟩
  · simp [get_task, find?_eq_none_of_all_ne h]
  · rw [update_missing s tid u h]
    rfl
  · rw [delete_missing s tid h]
    rfl

/-- C7 witness: the three operations on id 9, absent from a 1-task store. -/
theorem C7_missing_id_notFound_witness :
    get_task ⟨[⟨1, "a", "todo", "now", 0⟩], 2⟩ 9 =
      (⟨[⟨1, "a", "todo", "now", 0⟩], 2⟩, .error .notFound) ∧
    update_task ⟨[⟨1, "a", "todo", "now", 0⟩], 2⟩ 9 ⟨some "b", none, none⟩ =
      ([], .error .notFound) ∧
    delete_task ⟨[⟨1, "a", "todo", "now", 0⟩], 2⟩ 9 = ([⟨"DELETE", 0⟩], .error .notFound) :=
  ⟨(C7_missing_id_notFound ⟨[⟨1, "a", "todo", "now", 0⟩], 2⟩ 9 (by decide)).1,
   (C7_missing_id_notFound ⟨[⟨1, "a", "todo", "now", 0⟩], 2⟩ 9 (by decide)).2.1
     ⟨some "b", none, none⟩,
   (C7_missing_id_notFound ⟨[⟨1, "a", "todo", "now", 0⟩], 2⟩ 9 (by decide)).2.2.1⟩

/-- C8 counterexample: Update on an existing id with a position change and
an invalid status executes the three reordering UPDATE statements (each
matching at least one row) before the status validation fails, so a
mutating write does precede the validation failure. -/
theorem C8_cx_reorder_writes_precede_status_failure :
    update_task ⟨[⟨1, "a", "todo", "now", 0⟩, ⟨2, "b", "todo", "now", 1⟩], 3⟩ 1
        ⟨none, some "bogus", some 1⟩ =
      ([⟨"UPDATE", 1⟩, ⟨"UPDATE", 1⟩, ⟨"UPDATE", 1⟩], .error .invalidArgument) ∧
    (update_task ⟨[⟨1, "a", "todo", "now", 0⟩, ⟨2, "b", "todo", "now", 1⟩], 3⟩ 1
        ⟨none, some "bogus", some 1⟩).1.any (fun w => 0 < w.rows) = true :=
  ⟨rfl, by rfl⟩

/-- C8 (amended): every validation or lookup failure except one is
detected before any row-matching write: Create with an invalid status and
Update on a missing id execute no mutating statement, Delete on a missing
id executes only a DELETE matching zero rows, and an invalid-status
Update without a position change (index absent or equal to the current
one) executes no mutating statement at all; the exception is Update with
a position change and an invalid status, whose reordering writes run
first but are rolled back (never committed), so the persisted state is
unchanged in every failure case. -/
theorem C8_no_committed_write_precedes_failure :
    (∀ (s : DB) (tc : TaskCreate) (now : String), tc.status ∉ validStatuses →
        create_task s tc now = ([], .error .invalidArgument)) ∧
    (∀ (s : DB) (tid : Nat), (∀ r ∈ s.tasks, r.id ≠ tid) → ∀ u,
        update_task s tid u = ([], .error .notFound)) ∧
    (∀ (s : DB) (tid : Nat), (∀ r ∈ s.tasks, r.id ≠ tid) →
        delete_task s tid = ([⟨"DELETE", 0⟩], .error .notFound) ∧
        ∀ w ∈ (delete_task s tid).1, w.rows = 0) ∧
    (∀ (s : DB) (tid : Nat) (u : TaskUpdate) (cur : Task) (st : String),
        s.tasks.find? (fun r => r.id == tid) = some cur →
        u.status = some st → st ≠ "" → st ∉ validStatuses →
        (update_task s tid u).2 = .error .invalidArgument ∧
        persistedOf s (update_task s tid u).2 = s) ∧
    (∀ (s : DB) (tid : Nat) (u : TaskUpdate) (cur : Task) (st : String),
        s.tasks.find? (fun r => r.id == tid) = some cur →
        u.status = some st → st ≠ "" → st ∉ validStatuses →
        (u.order_index = none ∨ u.order_index = some cur.order_index) →
        update_task s tid u = ([], .error .invalidArgument)) := by
  refine ⟨fun s tc now h => create_invalid_status s tc now h,
    fun s tid h u => update_missing s tid u h,
    fun s tid h => ?_,
    fun s tid u cur st hf hs hne hv => ?_,
    fun s tid u cur st hf hs hne hv ho =>
      update_bad_status_nomove s tid u cur st hf hs hne hv ho⟩
  · refine ⟨delete_missing s tid h, fun w hw => ?_⟩
    rw [delete_missing s tid h] at hw
    simp at hw
    rw [hw]
  · have h2 := update_bad_status s tid u cur st hf hs hne hv
    rw [h2]
    exact ⟨rfl, rfl⟩

/-- C8 witness: concrete instantiations of all five conjuncts. -/
theorem C8_no_committed_write_precedes_failure_witness :
    create_task ⟨[], 1⟩ ⟨"a", "bogus", none⟩ "now" = ([], .error .invalidArgument) ∧
    update_task ⟨[], 1⟩ 7 ⟨some "b", none, none⟩ = ([], .error .notFound) ∧
    delete_task ⟨[], 1⟩ 7 = ([⟨"DELETE", 0⟩], .error .notFound) ∧
    (update_task ⟨[⟨1, "a", "todo", "now", 0⟩, ⟨2, "b", "todo", "now", 1⟩], 3⟩ 1
        ⟨none, some "bogus", some 1⟩).2 = .error .invalidArgument ∧
    update_task ⟨[⟨1, "a", "todo", "now", 0⟩, ⟨2, "b", "todo", "now", 1⟩], 3⟩ 1
        ⟨none, some "bogus", some 0⟩ = ([], .error .invalidArgument) :=
  ⟨C8_no_committed_write_precedes_failure.1 ⟨[], 1⟩ ⟨"a", "bogus", none⟩ "now" (by decide),
   C8_no_committed_write_precedes_failure.2.1 ⟨[], 1⟩ 7 (by decide) ⟨some "b", none, none⟩,
   (C8_no_committed_write_precedes_failure.2.2.1 ⟨[], 1⟩ 7 (by decide)).1,
   (C8_no_committed_write_precedes_failure.2.2.2.1
      ⟨[⟨1, "a", "todo", "now", 0⟩, ⟨2, "b", "todo", "now", 1⟩], 3⟩ 1
      ⟨none, some "bogus", some 1⟩ ⟨1, "a", "todo", "now", 0⟩ "bogus"
      (by rfl) rfl (by decide) (by decide)).1,
   C8_no_committed_write_precedes_failure.2.2.2.2
      ⟨[⟨1, "a", "todo", "now", 0⟩, ⟨2, "b", "todo", "now", 1⟩], 3⟩ 1
      ⟨none, some "bogus", some 0⟩ ⟨1, "a", "todo", "now", 0⟩ "bogus"
      (by rfl) rfl (by decide) (by decide) (Or.inr rfl)⟩

/-- C10: an Update with no title, an absent or falsy status, and an absent
or unchanged `order_index` is an identity: it succeeds, returns the task
exactly as stored, executes no mutating statement and leaves the state
unchanged. -/
theorem C10_noop_update_is_identity (s : DB) (tid : Nat) (u : TaskUpdate) (cur : Task)
    (hf : s.tasks.find? (fun r => r.id == tid) = some cur)
    (ht : u.title = none)
    (hs : u.status = none ∨ u.status = some "")
    (ho : u.order_index = none ∨ u.order_index = some cur.order_index) :
    update_task s tid u = ([], .ok (s, some cur)) := by
  rcases ho with ho | ho <;> rcases hs with hs | hs <;>
    simp [update_task, hf, ho, hs, ht]

/-- C10 witness: identity update (empty status, current index) on a
2-task store. -/
theorem C10_noop_update_is_identity_witness :
    update_task ⟨[⟨1, "a", "todo", "now", 0⟩, ⟨2, "b", "done", "now", 1⟩], 3⟩ 2
        ⟨none, some "", some 1⟩ =
      ([], .ok (⟨[⟨1, "a", "todo", "now", 0⟩, ⟨2, "b", "done", "now", 1⟩], 3⟩,
                some ⟨2, "b", "done", "now", 1⟩)) :=
  C10_noop_update_is_identity ⟨[⟨1, "a", "todo", "now", 0⟩, ⟨2, "b", "done", "now", 1⟩], 3⟩ 2
    ⟨none, some "", some 1⟩ ⟨2, "b", "done", "now", 1⟩ (by rfl) rfl (Or.inr rfl) (Or.inr rfl)

/-- C5: a Create with a valid status and a present `requested_index`
inserts the new row with exactly that index, changes no existing row, and
returns the created task; no shifting happens whatever the value. -/
theorem C5_create_trusts_requested_index (s : DB) (tc : TaskCreate) (now : String) (k : Int)
    (hv : tc.status ∈ validStatuses) (hk : tc.order_index = some k)
    (hfresh : ∀ r ∈ s.tasks, r.id ≠ s.next_id) :
    create_task s tc now =
      ([⟨"INSERT", 1⟩],
       .ok (⟨s.tasks ++ [⟨s.next_id, tc.title, tc.status, now, k⟩], s.next_id + 1⟩,
            some ⟨s.next_id, tc.title, tc.status, now, k⟩)) := by
  simp [create_task, hv, hk, List.find?_append, find?_eq_none_of_all_ne hfresh]

/-- C5 witness: create with requested index 0 into a store already using
index 0, producing a duplicate index and leaving the old row untouched. -/
theorem C5_create_trusts_requested_index_witness :
    create_task ⟨[⟨1, "a", "todo", "now", 0⟩], 2⟩ ⟨"b", "done", some 0⟩ "now" =
      ([⟨"INSERT", 1⟩],
       .ok (⟨[⟨1, "a", "todo", "now", 0⟩, ⟨2, "b", "done", "now", 0⟩], 3⟩,
            some ⟨2, "b", "done", "now", 0⟩)) :=
  C5_create_trusts_requested_index ⟨[⟨1, "a", "todo", "now", 0⟩], 2⟩ ⟨"b", "done", some 0⟩
    "now" 0 (by decide) rfl (by decide)

lemma pairwise_lt_of_sorted_nodup (l : List Task)
    (hs : l.Sorted idxLe)
    (hnd : (l.map (fun r => r.order_index)).Nodup) :
    l.Pairwise (fun a b => a.order_index < b.order_index) := by
  have hne : l.Pairwise (fun a b => a.order_index ≠ b.order_index) :=
    List.pairwise_map.mp hnd
  exact (hs.and hne).imp (fun h => lt_of_le_of_ne h.1 h.2)

/-- C9: List returns the state unchanged (only a SELECT runs), returns
every stored task (a permutation of the table), sorted ascending by
`order_index`, and strictly ascending when the stored indices are
unique. -/
theorem C9_list_sorted_and_pure (s : DB) :
    (get_tasks s).1 = s ∧
    List.Perm (get_tasks s).2 s.tasks ∧
    (get_tasks s).2.Sorted idxLe ∧
    ((s.tasks.map (fun r => r.order_index)).Nodup →
      (get_tasks s).2.Pairwise (fun a b => a.order_index < b.order_index)) := by
  refine ⟨rfl, List.perm_insertionSort idxLe s.tasks,
    List.sorted_insertionSort idxLe s.tasks, fun hnd => ?_⟩
  refine pairwise_lt_of_sorted_nodup _ (List.sorted_insertionSort idxLe s.tasks) ?_
  have hp : List.Perm ((List.insertionSort idxLe s.tasks).map (fun r => r.order_index))
      (s.tasks.map (fun r => r.order_index)) :=
    (List.perm_insertionSort idxLe s.tasks).map _
  exact hp.nodup_iff.mpr hnd

/-- C9 witness: strict ascending order on a concrete 3-task store with
unique indices stored out of order. -/
theorem C9_list_sorted_and_pure_witness :
    (get_tasks ⟨[⟨1, "a", "todo", "now", 2⟩, ⟨2, "b", "done", "now", 0⟩,
        ⟨3, "c", "todo", "now", 1⟩], 4⟩).2.Pairwise
      (fun a b => a.order_index < b.order_index) :=
  (C9_list_sorted_and_pure ⟨[⟨1, "a", "todo", "now", 2⟩, ⟨2, "b", "done", "now", 0⟩,
      ⟨3, "c", "todo", "now", 1⟩], 4⟩).2.2.2 (by decide)

lemma move_pointwise_down (tid : Nat) (C T : Int) (hC0 : 0 ≤ C) (r : Task) :
    (fun x => if x.id = tid then { x with order_index := T } else x)
      ((fun x => if C < x.order_index ∧ x.order_index ≤ T then
          { x with order_index := x.order_index - 1 } else x)
        ((fun x => if x.id = tid then { x with order_index := (-1 : Int) } else x) r)) =
    if r.id = tid then { r with order_index := T }
    else if C < r.order_index ∧ r.order_index ≤ T then
      { r with order_index := r.order_index - 1 } else r := by
  by_cases hr : r.id = tid
  · have hsent : ¬ (C < (-1 : Int) ∧ (-1 : Int) ≤ T) := by omega
    simp [hr, hsent]
  · by_cases hcond : C < r.order_index ∧ r.order_index ≤ T <;> simp [hr, hcond]

lemma move_pointwise_up (tid : Nat) (C T : Int) (hT0 : 0 ≤ T) (r : Task) :
    (fun x => if x.id = tid then { x with order_index := T } else x)
      ((fun x => if T ≤ x.order_index ∧ x.order_index < C then
          { x with order_index := x.order_index + 1 } else x)
        ((fun x => if x.id = tid then { x with order_index := (-1 : Int) } else x) r)) =
    if r.id = tid then { r with order_index := T }
    else if T ≤ r.order_index ∧ r.order_index < C then
      { r with order_index := r.order_index + 1 } else r := by
  by_cases hr : r.id = tid
  · have hsent : ¬ (T ≤ (-1 : Int) ∧ (-1 : Int) < C) := by omega
    simp [hr, hsent]
  · by_cases hcond : T ≤ r.order_index ∧ r.order_index < C <;> simp [hr, hcond]

/-- C2: against a dense list (`order_index` values a permutation of
`{0, …, n-1}`), an Update that only moves an existing task to target
`T ≠ C`, `T ∈ [0, n-1]`, succeeds; the moved task lands exactly at `T`,
tasks with index in `(C, T]` are decremented when `T > C`, tasks with
index in `[T, C)` are incremented when `T < C`, all others untouched. -/
theorem C2_move_shifts_interval (s : DB) (tid : Nat) (cur : Task) (T : Int)
    (hf : s.tasks.find? (fun r => r.id == tid) = some cur)
    (hperm : List.Perm (s.tasks.map (fun r => r.order_index))
      ((List.range s.tasks.length).map Int.ofNat))
    (hT : 0 ≤ T ∧ T < (s.tasks.length : Int))
    (hne : T ≠ cur.order_index) :
    ∃ db' rt, (update_task s tid ⟨none, none, some T⟩).2 = .ok (db', rt) ∧
      db'.next_id = s.next_id ∧
      db'.tasks = s.tasks.map (fun r =>
        if r.id = tid then { r with order_index := T }
        else if cur.order_index < T then
          (if cur.order_index < r.order_index ∧ r.order_index ≤ T then
            { r with order_index := r.order_index - 1 } else r)
        else
          (if T ≤ r.order_index ∧ r.order_index < cur.order_index then
            { r with order_index := r.order_index + 1 } else r)) := by
  have hC0 : (0 : Int) ≤ cur.order_index := by
    have hcm : cur ∈ s.tasks := List.mem_of_find?_eq_some hf
    have h1 : cur.order_index ∈ s.tasks.map (fun r => r.order_index) :=
      List.mem_map_of_mem _ hcm
    have h2 := hperm.mem_iff.mp h1
    simp only [List.mem_map, List.mem_range] at h2
    obtain ⟨k, _, hk⟩ := h2
    have h3 : (0 : Int) ≤ Int.ofNat k := Int.natCast_nonneg k
    rw [hk] at h3
    exact h3
  obtain ⟨hT0, _⟩ := hT
  simp only [update_task, hf, if_neg hne]
  by_cases hc : cur.order_index < T
  · simp only [if_pos hc]
    refine ⟨_, _, rfl, rfl, ?_⟩
    rw [List.map_map, List.map_map]
    refine List.map_congr_left fun r _ => ?_
    simp only [Function.comp_apply]
    exact move_pointwise_down tid cur.order_index T hC0 r
  · simp only [if_neg hc]
    refine ⟨_, _, rfl, rfl, ?_⟩
    rw [List.map_map, List.map_map]
    refine List.map_congr_left fun r _ => ?_
    simp only [Function.comp_apply]
    exact move_pointwise_up tid cur.order_index T hT0 r

/-- C2 witness: the spec's 5-task example — moving the task at index 1
(id 2) to target 3 yields indices `{old0:0, old1:3, old2:1, old3:2,
old4:4}`. -/
theorem C2_move_shifts_interval_witness :
    ∃ db' rt,
      (update_task ⟨[⟨1, "a", "todo", "now", 0⟩, ⟨2, "b", "todo", "now", 1⟩,
          ⟨3, "c", "todo", "now", 2⟩, ⟨4, "d", "todo", "now", 3⟩,
          ⟨5, "e", "todo", "now", 4⟩], 6⟩ 2 ⟨none, none, some 3⟩).2 = .ok (db', rt) ∧
      db'.next_id = 6 ∧
      db'.tasks = [⟨1, "a", "todo", "now", 0⟩, ⟨2, "b", "todo", "now", 1⟩,
          ⟨3, "c", "todo", "now", 2⟩, ⟨4, "d", "todo", "now", 3⟩,
          ⟨5, "e", "todo", "now", 4⟩].map (fun r =>
        if r.id = 2 then { r with order_index := (3 : Int) }
        else if (1 : Int) < 3 then
          (if (1 : Int) < r.order_index ∧ r.order_index ≤ 3 then
            { r with order_index := r.order_index - 1 } else r)
        else
          (if (3 : Int) ≤ r.order_index ∧ r.order_index < 1 then
            { r with order_index := r.order_index + 1 } else r)) :=
  C2_move_shifts_interval ⟨[⟨1, "a", "todo", "now", 0⟩, ⟨2, "b", "todo", "now", 1⟩,
      ⟨3, "c", "todo", "now", 2⟩, ⟨4, "d", "todo", "now", 3⟩,
      ⟨5, "e", "todo", "now", 4⟩], 6⟩ 2 ⟨2, "b", "todo", "now", 1⟩ 3
    (by rfl) (by decide) (by decide) (by decide)

lemma renumberFrom_fst_eq : ∀ (ids : List Nat), ids.Nodup → ∀ (ts : List Task) (i : Nat),
    (renumberFrom ts i ids).1 = ts.map (fun t =>
      if t.id ∈ ids then { t with order_index := ((i + List.indexOf t.id ids : Nat) : Int) }
      else t)
  | [], _, ts, i => by simp [renumberFrom]
  | tid :: rest, hnd, ts, i => by
    obtain ⟨hni, hndr⟩ := List.nodup_cons.mp hnd
    simp only [renumberFrom]
    rw [renumberFrom_fst_eq rest hndr _ (i + 1), List.map_map]
    refine List.map_congr_left fun t _ => ?_
    simp only [Function.comp_apply]
    by_cases ht : t.id = tid
    · simp [ht, hni, List.indexOf_cons_eq rest ht.symm]
    · have hne2 : tid ≠ t.id := fun h => ht h.symm
      by_cases hm : t.id ∈ rest
      · have harith : (i + (List.indexOf t.id rest).succ : Nat) =
            (i + 1) + List.indexOf t.id rest := by omega
        simp [ht, hm, List.indexOf_cons_ne rest hne2, harith]
      · simp [ht, hm]

lemma indexOf_eq_countP_lt : ∀ (S : List Task),
    S.Pairwise (fun a b => a.order_index < b.order_index) →
    (S.map (fun r => r.id)).Nodup →
    ∀ u ∈ S, List.indexOf u.id (S.map (fun r => r.id)) =
      S.countP (fun v => v.order_index < u.order_index)
  | [], _, _, u, hu => by simp at hu
  | a :: S', hp, hnd, u, hu => by
    obtain ⟨ha, hp'⟩ := List.pairwise_cons.mp hp
    simp only [List.map_cons] at hnd ⊢
    obtain ⟨hna, hnd'⟩ := List.nodup_cons.mp hnd
    by_cases hid : u.id = a.id
    · have hua : u = a := by
        rcases List.mem_cons.mp hu with h | h
        · exact h
        · exact absurd (hid ▸ List.mem_map_of_mem (fun r => r.id) h) hna
      subst hua
      rw [List.indexOf_cons_eq _ rfl]
      symm
      rw [List.countP_eq_zero]
      intro v hv
      rcases List.mem_cons.mp hv with hv | hv'
      · simp [hv]
      · have h2 := ha v hv'
        simp only [decide_eq_true_eq]
        omega
    · have hu' : u ∈ S' := by
        rcases List.mem_cons.mp hu with h | h
        · exact absurd (congrArg (fun r => r.id) h) hid
        · exact h
      rw [List.indexOf_cons_ne _ (fun h => hid h.symm), List.countP_cons,
        indexOf_eq_countP_lt S' hp' hnd' u hu']
      have hpa : decide (a.order_index < u.order_index) = true := by
        simp [ha u hu']
      simp [hpa]

/-- C4: deleting an existing id removes exactly that row and rewrites each
remaining row's `order_index` to its rank in the ascending `order_index`
ordering of the pre-delete remaining rows (0, 1, 2, …), keeping every
other field and the rowid order; this is an unconditional full
renumbering. -/
theorem C4_delete_renumbers_to_rank (s : DB) (tid : Nat)
    (hid : (s.tasks.map (fun r => r.id)).Nodup)
    (hex : ∃ r ∈ s.tasks, r.id = tid)
    (hidx : ((s.tasks.filter (fun r => r.id ≠ tid)).map (fun r => r.order_index)).Nodup) :
    (delete_task s tid).2 =
      .ok (⟨(s.tasks.filter (fun r => r.id ≠ tid)).map (fun t =>
          { t with order_index :=
              (((s.tasks.filter (fun r => r.id ≠ tid)).countP
                 (fun v => v.order_index < t.order_index) : Nat) : Int) }),
        s.next_id⟩, ()) := by
  obtain ⟨r0, hr0, hr0id⟩ := hex
  have hcount : ¬ s.tasks.countP (fun r => r.id == tid) = 0 := by
    rw [List.countP_eq_zero]
    push_neg
    exact ⟨r0, hr0, by simp [hr0id]⟩
  simp only [delete_task, if_neg hcount]
  have hperm : List.Perm (sortTasks (s.tasks.filter (fun r => r.id ≠ tid)))
      (s.tasks.filter (fun r => r.id ≠ tid)) :=
    List.perm_insertionSort idxLe _
  have hids_nd_rem : ((s.tasks.filter (fun r => r.id ≠ tid)).map (fun r => r.id)).Nodup :=
    List.Nodup.sublist ((List.filter_sublist _).map _) hid
  have hids_nd : ((sortTasks (s.tasks.filter (fun r => r.id ≠ tid))).map
      (fun r => r.id)).Nodup :=
    ((hperm.map (fun r => r.id)).nodup_iff).mpr hids_nd_rem
  have hidx_S : ((sortTasks (s.tasks.filter (fun r => r.id ≠ tid))).map
      (fun r => r.order_index)).Nodup :=
    ((hperm.map (fun r => r.order_index)).nodup_iff).mpr hidx
  have hplt : (sortTasks (s.tasks.filter (fun r => r.id ≠ tid))).Pairwise
      (fun a b => a.order_index < b.order_index) :=
    pairwise_lt_of_sorted_nodup _ (List.sorted_insertionSort idxLe _) hidx_S
  rw [renumberFrom_fst_eq _ hids_nd _ 0]
  have hmap : (s.tasks.filter (fun r => r.id ≠ tid)).map (fun t =>
      if t.id ∈ (sortTasks (s.tasks.filter (fun r => r.id ≠ tid))).map (fun r => r.id) then
        { t with order_index :=
            ((0 + List.indexOf t.id ((sortTasks (s.tasks.filter
                (fun r => r.id ≠ tid))).map (fun r => r.id)) : Nat) : Int) }
      else t) =
    (s.tasks.filter (fun r => r.id ≠ tid)).map (fun t =>
      { t with order_index :=
          (((s.tasks.filter (fun r => r.id ≠ tid)).countP
             (fun v => v.order_index < t.order_index) : Nat) : Int) }) := by
    refine List.map_congr_left fun t htm => ?_
    have htS : t ∈ sortTasks (s.tasks.filter (fun r => r.id ≠ tid)) := hperm.mem_iff.mpr htm
    have htid : t.id ∈ (sortTasks (s.tasks.filter (fun r => r.id ≠ tid))).map
        (fun r => r.id) := List.mem_map_of_mem _ htS
    rw [if_pos htid, indexOf_eq_countP_lt _ hplt hids_nd t htS,
      hperm.countP_eq, Nat.zero_add]
  rw [hmap]

/-- C4 witness: the spec's example — deleting the task with
`order_index = 1` (id 2) from a dense 4-task list renumbers the remaining
three tasks to `[0, 1, 2]` preserving relative order. -/
theorem C4_delete_renumbers_to_rank_witness :
    (delete_task ⟨[⟨1, "a", "todo", "now", 0⟩, ⟨2, "b", "todo", "now", 1⟩,
        ⟨3, "c", "todo", "now", 2⟩, ⟨4, "d", "todo", "now", 3⟩], 5⟩ 2).2 =
      .ok (⟨(([⟨1, "a", "todo", "now", 0⟩, ⟨2, "b", "todo", "now", 1⟩,
          ⟨3, "c", "todo", "now", 2⟩,
          ⟨4, "d", "todo", "now", 3⟩] : List Task).filter (fun r => r.id ≠ 2)).map (fun t =>
          { t with order_index :=
              (((([⟨1, "a", "todo", "now", 0⟩, ⟨2, "b", "todo", "now", 1⟩,
                  ⟨3, "c", "todo", "now", 2⟩,
                  ⟨4, "d", "todo", "now", 3⟩] : List Task).filter (fun r => r.id ≠ 2)).countP
                 (fun v => v.order_index < t.order_index) : Nat) : Int) }),
        5⟩, ()) :=
  C4_delete_renumbers_to_rank ⟨[⟨1, "a", "todo", "now", 0⟩, ⟨2, "b", "todo", "now", 1⟩,
      ⟨3, "c", "todo", "now", 2⟩, ⟨4, "d", "todo", "now", 3⟩], 5⟩ 2
    (by decide) ⟨⟨2, "b", "todo", "now", 1⟩, by decide, rfl⟩ (by decide)

end Todo
